import Mathlib

/-!
Verification of the Synovora LinkedIn content-automation dashboard.

This file shallowly embeds the parts of the repository that the checked
properties talk about:

* the automation cadence gate and the cron `/cron/run-automation` handler
  (documented in the repository's cron guide; the server handler itself is
  not among the provided sources, so those definitions are modelled from
  the spec and that guide);
* the `clerk_users` automation columns of `backend/supabase/schema.sql`;
* `activityData` from `frontend/src/pages/Dashboard.tsx`;
* `StatusDonutChart` from the status-donut chart component;
* `apiFetch` from `frontend/src/lib/api.ts`.

Timestamps are modelled as integers (an absolute number of seconds), and
calendar days as integer day numbers.
-/

namespace Synovora

/-- The automation frequency enum: `automation_frequency` is constrained by
`schema.sql` to `'daily'` or `'weekly'`. -/
inductive Frequency where
  | daily
  | weekly
  deriving DecidableEq, Repr

/-- Result of the cadence gate. -/
inductive GateResult where
  | eligible
  | skip
  deriving DecidableEq, Repr

/-- One hour, in seconds. -/
def hourSec : Int := 3600

/-- One day, in seconds. -/
def daySec : Int := 24 * 3600

/-- Modelled from the spec: the cron handler is not among the provided
sources (only its documentation and the database schema are).  Per the spec
and the cron guide, the cadence threshold is 23 hours for `daily` and
7 days for `weekly`. -/
def cadenceThreshold : Frequency → Int
  | .daily => 23 * hourSec
  | .weekly => 7 * daySec

/-- Modelled from the spec: the cadence gate of the cron handler (not among
the provided sources).  Per the cron guide, a user who "already ran in the
last 23 hours" (daily) or "in the last 7 days" (weekly) is skipped;
otherwise, or when `last_auto_run_at` is null, the user is eligible.
"Ran in the last `w`" is `now - t ≤ w`. -/
def cadenceGate (frequency : Frequency) (lastAutoRunAt : Option Int)
    (now : Int) : GateResult :=
  match lastAutoRunAt with
  | none => .eligible
  | some t => if now - t ≤ cadenceThreshold frequency then .skip else .eligible

/-- Modelled from the spec: after the cron handler successfully creates a
post for a user it sets `last_auto_run_at` to that run's time; a failed run
leaves it unchanged (handler not among the provided sources). -/
def updateGate (lastAutoRunAt : Option Int) (runTime : Int)
    (postCreated : Bool) : Option Int :=
  if postCreated then some runTime else lastAutoRunAt

end Synovora

namespace Synovora

/-- Post status enum of the `posts` table
(`schema.sql`: `check (status in ('draft', 'scheduled', 'publishing',
'published', 'failed'))`) and of `types.ts` `PostStatus`. -/
inductive PostStatus where
  | draft
  | scheduled
  | publishing
  | published
  | failed
  deriving DecidableEq, Repr

/-- Log status enum of the `automation_logs` table
(`schema.sql`: `check (status in ('success', 'partial', 'failed'))`);
`partialSuccess` stands for the SQL value `'partial'`. -/
inductive LogStatus where
  | success
  | partialSuccess
  | failed
  deriving DecidableEq, Repr

/-- Outcome of one automation run for one user: the status of the post it
created (if any), the status logged to `automation_logs`, and whether the
run counts as a successful post creation (which advances the gate). -/
structure RunOutcome where
  post : Option PostStatus
  log : LogStatus
  postCreated : Bool
  deriving DecidableEq, Repr

/-- Modelled from the spec: the per-user body of the cron handler (not
among the provided sources).  Per the spec and the cron guide: if post
creation fails the run is logged `failed` and no post exists; if the draft
is created and the user chose auto-publish, a publish is attempted — on
success the post is `published`, and if publish fails "the post remains as
a draft; the cron run still succeeds"; without auto-publish the post stays
a `draft`.  `createOk`/`publishOk` stand for the success of the external
AI-generation and LinkedIn-publish calls. -/
def processUser (autoPublish createOk publishOk : Bool) : RunOutcome :=
  if !createOk then
    { post := none, log := .failed, postCreated := false }
  else if autoPublish then
    if publishOk then
      { post := some .published, log := .success, postCreated := true }
    else
      { post := some .draft, log := .success, postCreated := true }
  else
    { post := some .draft, log := .success, postCreated := true }

/-- A user row as seen by the cron handler: identity, automation settings,
and the (modelled) success of the external calls made for that user. -/
structure CronUser where
  name : String
  frequency : Frequency
  lastAutoRunAt : Option Int
  autoPublish : Bool
  createOk : Bool
  publishOk : Bool
  failMessage : String
  deriving DecidableEq, Repr

/-- An entry of the `errors` list of the cron response. -/
structure CronError where
  user : String
  message : String
  deriving DecidableEq, Repr

/-- The JSON body returned by `/cron/run-automation`
(cron guide: `{ users_processed, posts_created, errors }`). -/
structure CronResponse where
  users_processed : Nat
  posts_created : Nat
  errors : List CronError
  deriving DecidableEq, Repr

/-- Modelled from the spec: default of `CRON_AUTOMATION_MAX_USERS_PER_RUN`
(cron guide: "processes at most 1 user per run by default"). -/
def defaultMaxUsersPerRun : Nat := 1

/-- Modelled from the spec: sequential processing of a batch of users by
the cron handler (not among the provided sources).  Each user is processed
in turn; a user whose run fails contributes a `{user, message}` entry to
`errors` and processing continues with the remaining users. -/
def processBatch : List CronUser → CronResponse
  | [] => { users_processed := 0, posts_created := 0, errors := [] }
  | u :: rest =>
    let r := processBatch rest
    if (processUser u.autoPublish u.createOk u.publishOk).postCreated then
      { users_processed := r.users_processed + 1,
        posts_created := r.posts_created + 1,
        errors := r.errors }
    else
      { users_processed := r.users_processed + 1,
        posts_created := r.posts_created,
        errors := { user := u.name, message := u.failMessage } :: r.errors }

/-- The automation columns of a `clerk_users` row
(`backend/supabase/schema.sql`): `occupation text` (nullable),
`automation_enabled boolean not null default false`,
`automation_frequency text not null default 'daily'`,
`last_auto_run_at timestamptz` (nullable).  `auto_publish` is modelled from
the spec: the backend migration persisting the per-user auto-publish choice
(sent by `setAutomationSetting` in `api.ts` and described in the cron
guide) is not among the provided sources. -/
structure ClerkUserRow where
  occupation : Option String
  automation_enabled : Bool
  automation_frequency : String
  auto_publish : Bool
  last_auto_run_at : Option Int
  deriving DecidableEq, Repr

/-- The schema's check constraint:
`automation_frequency in ('daily', 'weekly')`. -/
def frequencyCheck (s : String) : Bool :=
  s == "daily" || s == "weekly"

/-- A `clerk_users` row accepted by the database: the check constraint of
`schema.sql` holds. -/
def validClerkUserRow (r : ClerkUserRow) : Prop :=
  frequencyCheck r.automation_frequency = true

/-- Decode the stored frequency text into the enum. -/
def parseFrequency (s : String) : Option Frequency :=
  if s == "daily" then some .daily
  else if s == "weekly" then some .weekly
  else none

/-- The spec's per-user `AutomationSetting` record: `enabled`, `frequency`,
`occupation`, `auto_publish`, `last_auto_run_at`. -/
structure AutomationSetting where
  enabled : Bool
  frequency : Frequency
  occupation : String
  auto_publish : Bool
  last_auto_run_at : Option Int
  deriving DecidableEq, Repr

/-- The automation setting carried by a `clerk_users` row, defined when the
stored frequency text decodes (a nullable `occupation` reads as the empty
string). -/
def toSetting (r : ClerkUserRow) : Option AutomationSetting :=
  (parseFrequency r.automation_frequency).map fun f =>
    { enabled := r.automation_enabled
      frequency := f
      occupation := r.occupation.getD ""
      auto_publish := r.auto_publish
      last_auto_run_at := r.last_auto_run_at }

/-- Number of days of the dashboard activity chart
(`Dashboard.tsx`: `const days = 14`). -/
def activityChartDays : Nat := 14

/-- The bucket initialisation loop of `activityData` in `Dashboard.tsx`:
one bucket per day from `start = now - (days - 1)` to `now`, each with
count 0, in chronological order.  Calendar days are modelled as integer day
numbers, abstracting the `toISOString().slice(0, 10)` key by the day it
denotes. -/
def initBuckets (today : Int) : List (Int × Nat) :=
  (List.range activityChartDays).map fun i : Nat => (today - 13 + (i : Int), 0)

/-- One step of the `posts.forEach` loop: increment the bucket of `key`
when a bucket with that key exists (`if (!buckets.has(createdKey)) return`
followed by `buckets.set(createdKey, (buckets.get(createdKey) || 0) + 1)`). -/
def bumpBucket (buckets : List (Int × Nat)) (key : Int) :
    List (Int × Nat) :=
  buckets.map fun kc => if kc.1 = key then (kc.1, kc.2 + 1) else kc

/-- The `posts.forEach` loop of `activityData`: a post is abstracted to its
parsed creation day, `none` when `created_at` is absent or unparseable
(`!created || Number.isNaN(created.getTime())`), in which case it is
skipped. -/
def fillBuckets (buckets : List (Int × Nat)) (posts : List (Option Int)) :
    List (Int × Nat) :=
  posts.foldl
    (fun b p =>
      match p with
      | none => b
      | some k => bumpBucket b k)
    buckets

/-- `activityData` of `Dashboard.tsx`: the filled buckets in insertion
(i.e. chronological) order.  The final `.map` producing the `MM/DD` label
string is abstracted to the day key itself. -/
def activityData (today : Int) (posts : List (Option Int)) :
    List (Int × Nat) :=
  fillBuckets (initBuckets today) posts

/-- The number of posts of `posts` created on day `d`. -/
def postsOn (posts : List (Option Int)) (d : Int) : Nat :=
  (posts.filter fun p => p == some d).length

/-- A slice of the status donut chart (`Slice` in the chart component):
`name`, `value`, `color`. -/
structure Slice where
  name : String
  value : Int
  color : String
  deriving DecidableEq, Repr

/-- The placeholder slice of `StatusDonutChart`:
`{ name: 'No data', value: 1, color: '#cbd5e1' }`. -/
def noDataSlice : Slice :=
  { name := "No data", value := 1, color := "#cbd5e1" }

/-- `StatusDonutChart`'s data preparation:
`nonZero = data.filter((d) => d.value > 0)` and
`chartData = nonZero.length ? nonZero : [noDataSlice]`. -/
def chartData (data : List Slice) : List Slice :=
  let nonZero := data.filter fun d => 0 < d.value
  if nonZero.length = 0 then [noDataSlice] else nonZero

/-- A JSON value as handled by the frontend (`res.json()` result); numbers
are modelled as integers. -/
inductive Json where
  | null
  | bool (b : Bool)
  | num (n : Int)
  | str (s : String)
  | arr (elems : List Json)
  | obj (fields : List (String × Json))
  deriving BEq, Repr

/-- `data?.key` on a parsed body: `none` both when `data` is not an object
and when the key is absent (JS `undefined`). -/
def getField (data : Json) (key : String) : Option Json :=
  match data with
  | .obj fields => (fields.find? fun kv => kv.1 == key).map fun kv => kv.2
  | _ => none

/-- JS truthiness of a JSON value (`NaN` cannot result from `res.json()`).
-/
def truthy : Json → Bool
  | .null => false
  | .bool b => b
  | .num n => n != 0
  | .str s => s != ""
  | .arr _ => true
  | .obj _ => true

mutual

/-- `JSON.stringify` of a JSON value (escaping inside strings beyond the
surrounding quotes is not modelled). -/
def stringify : Json → String
  | .null => "null"
  | .bool true => "true"
  | .bool false => "false"
  | .num n => toString n
  | .str s => "\"" ++ s ++ "\""
  | .arr elems => "[" ++ stringifyArray elems ++ "]"
  | .obj fields => "\x7b" ++ stringifyFields fields ++ "\x7d"

/-- Comma-separated serialization of the elements of a JSON array. -/
def stringifyArray : List Json → String
  | [] => ""
  | [e] => stringify e
  | e :: rest => stringify e ++ "," ++ stringifyArray rest

/-- Comma-separated serialization of the fields of a JSON object. -/
def stringifyFields : List (String × Json) → String
  | [] => ""
  | [(k, v)] => "\"" ++ k ++ "\":" ++ stringify v
  | (k, v) :: rest =>
      "\"" ++ k ++ "\":" ++ stringify v ++ "," ++ stringifyFields rest

end

mutual

/-- JS `String()` coercion, as `new Error(message)` applies it to a
non-string message; an array joins its elements with commas (the empty
rendering of a `null` element is not modelled), an object prints
`[object Object]`. -/
def jsToString : Json → String
  | .null => "null"
  | .bool true => "true"
  | .bool false => "false"
  | .num n => toString n
  | .str s => s
  | .arr elems => jsArrayToString elems
  | .obj _ => "[object Object]"

/-- Comma-joined coercion of the elements of a JSON array. -/
def jsArrayToString : List Json → String
  | [] => ""
  | [e] => jsToString e
  | e :: rest => jsToString e ++ "," ++ jsArrayToString rest

end

/-- The fallback branch of `apiFetch`'s error message:
`(data as any)?.message || 'Request failed'`, with `new Error` coercing a
non-string message. -/
def fallbackMessage (data : Json) : String :=
  match getField data "message" with
  | some m => if truthy m then jsToString m else "Request failed"
  | none => "Request failed"

/-- The error message thrown by `apiFetch` for a non-ok response:
`typeof detail === 'string' ? detail : detail ? JSON.stringify(detail)
: (data as any)?.message || 'Request failed'`. -/
def errorMessage (data : Json) : String :=
  match getField data "detail" with
  | some (.str s) => s
  | some d => if truthy d then stringify d else fallbackMessage data
  | none => fallbackMessage data

/-- `apiFetch` of `frontend/src/lib/api.ts`, abstracted over the transport:
`ok` is `res.ok` and `body` the result of `res.json()` (`none` when the
body fails to parse, in which case `.catch(() => ({}))` substitutes the
empty object).  An ok response returns the parsed body; a non-ok response
throws `Error(errorMessage data)`. -/
def apiFetch (ok : Bool) (body : Option Json) : Except String Json :=
  let data := body.getD (Json.obj [])
  if ok then Except.ok data else Except.error (errorMessage data)

/-- The users of a batch that pass the cadence gate at time `now`. -/
def eligibleUsers (now : Int) (users : List CronUser) : List CronUser :=
  users.filter fun u =>
    cadenceGate u.frequency u.lastAutoRunAt now = .eligible

/-- Modelled from the spec: one invocation of `/cron/run-automation`
(handler not among the provided sources): gate-eligible users are
processed, at most `maxUsers` (`CRON_AUTOMATION_MAX_USERS_PER_RUN`) of
them. -/
def runAutomation (maxUsers : Nat) (now : Int) (users : List CronUser) :
    CronResponse :=
  processBatch ((eligibleUsers now users).take maxUsers)

end Synovora

namespace Synovora

/-- C1: the gate is eligible exactly when `last_auto_run_at` is null or
`now - last_auto_run_at` strictly exceeds the frequency threshold
(23 hours daily, 7 days weekly); in particular a null timestamp is always
eligible. -/
theorem cadenceGate_eligible_iff (frequency : Frequency)
    (lastAutoRunAt : Option Int) (now : Int) :
    (cadenceGate frequency lastAutoRunAt now = .eligible ↔
      (lastAutoRunAt = none ∨
        ∃ t, lastAutoRunAt = some t ∧
          now - t > cadenceThreshold frequency)) ∧
    cadenceGate frequency none now = .eligible := by
  refine ⟨?_, rfl⟩
  cases lastAutoRunAt with
  | none => simp [cadenceGate]
  | some t =>
    simp only [cadenceGate]
    by_cases h : now - t ≤ cadenceThreshold frequency <;> simp [h] <;> omega

/-- C2: for daily frequency the gate skips at `last + 22h` and is eligible
at `last + 24h`; for weekly frequency it skips at `last + 6 days` and is
eligible at `last + 8 days`. -/
theorem cadenceGate_boundaries (t : Int) :
    cadenceGate .daily (some t) (t + 22 * hourSec) = .skip ∧
    cadenceGate .daily (some t) (t + 24 * hourSec) = .eligible ∧
    cadenceGate .weekly (some t) (t + 6 * daySec) = .skip ∧
    cadenceGate .weekly (some t) (t + 8 * daySec) = .eligible := by
  refine ⟨?_, ?_, ?_, ?_⟩ <;>
    simp [cadenceGate, cadenceThreshold, hourSec, daySec]

/-- C3: a run that successfully creates a post sets `last_auto_run_at` to
the run's timestamp; a failed run leaves it unchanged; and a run creates a
post exactly when the creation step succeeds, independently of the publish
step. -/
theorem updateGate_spec (lastAutoRunAt : Option Int) (runTime : Int) :
    updateGate lastAutoRunAt runTime true = some runTime ∧
    updateGate lastAutoRunAt runTime false = lastAutoRunAt ∧
    (∀ autoPublish createOk publishOk,
      (processUser autoPublish createOk publishOk).postCreated = createOk) := by
  refine ⟨rfl, rfl, ?_⟩
  intro autoPublish createOk publishOk
  cases autoPublish <;> cases createOk <;> cases publishOk <;> rfl

/-- C4: when draft creation succeeds but publishing fails, the post is kept
as a `draft` and the run is logged `success`; when creation itself fails,
the run is logged `failed` and the gate timestamp is untouched. -/
theorem processUser_failure_semantics (lastAutoRunAt : Option Int)
    (runTime : Int) : ∀ autoPublish publishOk,
    processUser true true false =
      { post := some .draft, log := .success, postCreated := true } ∧
    (processUser true true false).log ≠ .failed ∧
    processUser autoPublish false publishOk =
      { post := none, log := .failed, postCreated := false } ∧
    updateGate lastAutoRunAt runTime
      (processUser autoPublish false publishOk).postCreated = lastAutoRunAt := by
  intro autoPublish publishOk
  refine ⟨rfl, by decide, ?_, ?_⟩ <;>
    cases autoPublish <;> cases publishOk <;> rfl

/-- C5: a cron invocation processes at most the configured per-run cap of
users, even when more users are eligible, and the cap defaults to 1. -/
theorem runAutomation_cap (maxUsers : Nat) (now : Int)
    (users : List CronUser) :
    (runAutomation maxUsers now users).users_processed ≤ maxUsers ∧
    defaultMaxUsersPerRun = 1 := by
  refine ⟨?_, rfl⟩
  have hlen : ∀ l : List CronUser, (processBatch l).users_processed = l.length := by
    intro l
    induction l with
    | nil => rfl
    | cons u rest ih =>
      simp only [processBatch]
      split <;> simp [ih]
  calc (runAutomation maxUsers now users).users_processed
      = ((eligibleUsers now users).take maxUsers).length := hlen _
    _ ≤ maxUsers := List.length_take_le _ _

/-- C6: every user in the batch is processed — a failing user contributes a
`{user, message}` entry to `errors` and does not abort the rest: the
response counts the whole batch, and the error list is exactly the failing
users of the batch in order. -/
theorem processBatch_isolates_failures (l : List CronUser) :
    (processBatch l).users_processed = l.length ∧
    (processBatch l).errors =
      (l.filter fun u => !u.createOk).map
        (fun u => { user := u.name, message := u.failMessage }) ∧
    (∀ u ∈ l, u.createOk = false →
      ({ user := u.name, message := u.failMessage } : CronError) ∈
        (processBatch l).errors) := by
  have key : ∀ m : List CronUser,
      (processBatch m).users_processed = m.length ∧
      (processBatch m).errors =
        (m.filter fun u => !u.createOk).map
          (fun u => { user := u.name, message := u.failMessage }) := by
    intro m
    induction m with
    | nil => exact ⟨rfl, rfl⟩
    | cons u rest ih =>
      have hpc : (processUser u.autoPublish u.createOk u.publishOk).postCreated
          = u.createOk := by
        cases h1 : u.autoPublish <;> cases h2 : u.createOk <;>
          cases h3 : u.publishOk <;> rfl
      simp only [processBatch, hpc]
      cases h : u.createOk <;>
        simp [ih.1, ih.2, List.filter_cons, h]
  refine ⟨(key l).1, (key l).2, ?_⟩
  intro u hu hfail
  rw [(key l).2]
  exact List.mem_map_of_mem _ (List.mem_filter.mpr ⟨hu, by simp [hfail]⟩)

/-- Witness for C6 at a concrete batch: with a failing user between two
succeeding ones, all three are processed and the failing user's
`{user, message}` entry is in the error list. -/
theorem processBatch_isolates_failures_witness :
    (processBatch
      [{ name := "a", frequency := .daily, lastAutoRunAt := none,
         autoPublish := false, createOk := true, publishOk := true,
         failMessage := "" },
       { name := "b", frequency := .daily, lastAutoRunAt := none,
         autoPublish := false, createOk := false, publishOk := true,
         failMessage := "boom" },
       { name := "c", frequency := .weekly, lastAutoRunAt := none,
         autoPublish := true, createOk := true, publishOk := false,
         failMessage := "" }]).users_processed = 3 ∧
    ({ user := "b", message := "boom" } : CronError) ∈
      (processBatch
        [{ name := "a", frequency := .daily, lastAutoRunAt := none,
           autoPublish := false, createOk := true, publishOk := true,
           failMessage := "" },
         { name := "b", frequency := .daily, lastAutoRunAt := none,
           autoPublish := false, createOk := false, publishOk := true,
           failMessage := "boom" },
         { name := "c", frequency := .weekly, lastAutoRunAt := none,
           autoPublish := true, createOk := true, publishOk := false,
           failMessage := "" }]).errors := by
  refine ⟨(processBatch_isolates_failures _).1, ?_⟩
  exact (processBatch_isolates_failures _).2.2
    { name := "b", frequency := .daily, lastAutoRunAt := none,
      autoPublish := false, createOk := false, publishOk := true,
      failMessage := "boom" } (by simp) rfl

/-- C7: a `clerk_users` row accepted by the schema stores one of `"daily"`
or `"weekly"` as frequency, and carries a full `AutomationSetting`
(enabled, frequency, occupation, auto_publish, nullable
last_auto_run_at), each field taken from the corresponding column. -/
theorem clerkUserRow_setting (r : ClerkUserRow) (h : validClerkUserRow r) :
    (r.automation_frequency = "daily" ∨ r.automation_frequency = "weekly") ∧
    ∃ s : AutomationSetting, toSetting r = some s ∧
      s.enabled = r.automation_enabled ∧
      s.occupation = r.occupation.getD "" ∧
      s.auto_publish = r.auto_publish ∧
      s.last_auto_run_at = r.last_auto_run_at ∧
      ((s.frequency = .daily ∧ r.automation_frequency = "daily") ∨
        (s.frequency = .weekly ∧ r.automation_frequency = "weekly")) := by
  have hfreq : r.automation_frequency = "daily" ∨
      r.automation_frequency = "weekly" := by
    have := h
    unfold validClerkUserRow frequencyCheck at this
    rcases Bool.or_eq_true_iff.mp this with h1 | h1
    · exact Or.inl (by simpa using h1)
    · exact Or.inr (by simpa using h1)
  refine ⟨hfreq, ?_⟩
  rcases hfreq with hf | hf
  · have hs : toSetting r = some
        { enabled := r.automation_enabled, frequency := .daily,
          occupation := r.occupation.getD "", auto_publish := r.auto_publish,
          last_auto_run_at := r.last_auto_run_at } := by
      simp [toSetting, parseFrequency, hf]
    exact ⟨_, hs, rfl, rfl, rfl, rfl, Or.inl ⟨rfl, hf⟩⟩
  · have hs : toSetting r = some
        { enabled := r.automation_enabled, frequency := .weekly,
          occupation := r.occupation.getD "", auto_publish := r.auto_publish,
          last_auto_run_at := r.last_auto_run_at } := by
      simp [toSetting, parseFrequency, hf]
    exact ⟨_, hs, rfl, rfl, rfl, rfl, Or.inr ⟨rfl, hf⟩⟩

/-- A skipped post leaves every day count unchanged. -/
theorem postsOn_cons_none (ps : List (Option Int)) (d : Int) :
    postsOn (none :: ps) d = postsOn ps d := by
  simp [postsOn, List.filter_cons]

/-- A post on day `k` adds one to the count of day `k` and to no other. -/
theorem postsOn_cons_some (k : Int) (ps : List (Option Int)) (d : Int) :
    postsOn (some k :: ps) d =
      if k = d then postsOn ps d + 1 else postsOn ps d := by
  by_cases hk : k = d <;> simp [postsOn, List.filter_cons, hk]

/-- The bucket-filling loop acts pointwise: each bucket's count grows by
the number of processed posts whose day equals that bucket's key. -/
theorem fillBuckets_eq (posts : List (Option Int))
    (buckets : List (Int × Nat)) :
    fillBuckets buckets posts =
      buckets.map fun kc => (kc.1, kc.2 + postsOn posts kc.1) := by
  induction posts generalizing buckets with
  | nil =>
    simp only [fillBuckets, List.foldl_nil]
    have : ∀ kc : Int × Nat, (kc.1, kc.2 + postsOn [] kc.1) = kc := by
      intro kc
      simp [postsOn]
    simp [this]
  | cons p ps ih =>
    cases p with
    | none =>
      have hstep : fillBuckets buckets (none :: ps) =
          fillBuckets buckets ps := rfl
      rw [hstep, ih]
      refine List.map_congr_left ?_
      intro kc _
      rw [postsOn_cons_none]
    | some k =>
      have hstep : fillBuckets buckets (some k :: ps) =
          fillBuckets (bumpBucket buckets k) ps := rfl
      rw [hstep, ih, bumpBucket, List.map_map]
      refine List.map_congr_left ?_
      intro kc _
      by_cases hk : kc.1 = k
      · simp [hk, postsOn_cons_some]
        omega
      · have hk2 : ¬ k = kc.1 := fun hh => hk hh.symm
        simp [hk, hk2, postsOn_cons_some]

/-- The activity chart equals one point per day of the 14-day window, in
chronological order, counting the posts of that day. -/
theorem activityData_eq (today : Int) (posts : List (Option Int)) :
    activityData today posts =
      (List.range activityChartDays).map fun i : Nat =>
        (today - 13 + (i : Int), postsOn posts (today - 13 + (i : Int))) := by
  rw [activityData, fillBuckets_eq, initBuckets, List.map_map]
  refine List.map_congr_left ?_
  intro i _
  simp

/-- C8: the activity chart has exactly 14 points; the `i`-th point is day
`today - 13 + i` (chronological order ending today) and its count is the
number of posts created on that day; a post created outside the 14-day
window, or with an unparseable creation date, contributes to no bucket. -/
theorem activityData_spec (today : Int) (posts : List (Option Int)) :
    (activityData today posts).length = 14 ∧
    (∀ i : Nat, i < 14 →
      (activityData today posts)[i]? =
        some (today - 13 + (i : Int),
          postsOn posts (today - 13 + (i : Int)))) ∧
    ∀ p, (p = none ∨ ∃ d, p = some d ∧ (d < today - 13 ∨ today < d)) →
      activityData today (p :: posts) = activityData today posts := by
  refine ⟨?_, ?_, ?_⟩
  · rw [activityData_eq, List.length_map, List.length_range]
    rfl
  · intro i hi
    have hr : (List.range activityChartDays)[i]? = some i := by
      have hlt : i < activityChartDays := by
        simpa [activityChartDays] using hi
      simp [List.getElem?_range, hlt]
    rw [activityData_eq, List.getElem?_map, hr]
    rfl
  · intro p hp
    rw [activityData_eq, activityData_eq]
    refine List.map_congr_left ?_
    intro i hi
    have hi14 : i < 14 := by
      simpa [activityChartDays] using List.mem_range.mp hi
    rcases hp with rfl | ⟨d, rfl, hd⟩
    · rw [postsOn_cons_none]
    · rw [postsOn_cons_some]
      have hne : ¬ d = today - 13 + (i : Int) := by omega
      rw [if_neg hne]

/-- Witness for C8 at concrete inputs (day number 20 stands for "today"):
the last chart point is today's with its post count, and a post on day 100,
outside the window, changes nothing. -/
theorem activityData_spec_witness :
    (activityData 20 [some 20, some 20, none, some 5])[13]? =
      some ((20 : Int) - 13 + (13 : Nat),
        postsOn [some 20, some 20, none, some 5]
          ((20 : Int) - 13 + (13 : Nat))) ∧
    activityData 20 (some 100 :: [some 20, some 20, none, some 5]) =
      activityData 20 [some 20, some 20, none, some 5] ∧
    postsOn [some 20, some 20, none, some 5] ((20 : Int) - 13 + (13 : Nat)) =
      2 := by
  refine ⟨(activityData_spec 20 _).2.1 13 (by decide), ?_, by decide⟩
  exact (activityData_spec 20 _).2.2 (some 100)
    (Or.inr ⟨100, rfl, Or.inr (by decide)⟩)

/-- C9: the donut chart drops every slice whose value is not strictly
positive; when the input has no positive slice (including the empty input)
it renders exactly the single "No data" placeholder of value 1; the
rendered data is never empty. -/
theorem chartData_spec (data : List Slice) :
    chartData data ≠ [] ∧
    (∀ s ∈ data, s.value ≤ 0 → s ∉ chartData data) ∧
    ((∃ s ∈ data, 0 < s.value) →
      chartData data = data.filter fun d => 0 < d.value) ∧
    ((∀ s ∈ data, s.value ≤ 0) → chartData data = [noDataSlice]) ∧
    chartData [] = [noDataSlice] := by
  by_cases h : (data.filter fun d => 0 < d.value).length = 0
  · have hcd : chartData data = [noDataSlice] := by
      simp only [chartData]
      rw [if_pos h]
    refine ⟨by simp [hcd], ?_, ?_, fun _ => hcd, rfl⟩
    · intro s hs hle hmem
      rw [hcd] at hmem
      have hsn : s = noDataSlice := by simpa using hmem
      rw [hsn] at hle
      exact absurd hle (by decide)
    · rintro ⟨s, hs, hpos⟩
      exfalso
      have hmemf : s ∈ data.filter fun d => 0 < d.value :=
        List.mem_filter.mpr ⟨hs, by simpa using hpos⟩
      rw [List.length_eq_zero.mp h] at hmemf
      exact absurd hmemf (List.not_mem_nil s)
  · have hcd : chartData data = data.filter fun d => 0 < d.value := by
      simp only [chartData]
      rw [if_neg h]
    refine ⟨?_, ?_, fun _ => hcd, ?_, rfl⟩
    · rw [hcd]
      intro he
      rw [he] at h
      exact h rfl
    · intro s hs hle hmem
      rw [hcd] at hmem
      have hpos := (List.mem_filter.mp hmem).2
      simp only [decide_eq_true_eq] at hpos
      omega
    · intro hall
      exfalso
      apply h
      rw [List.length_eq_zero, List.filter_eq_nil_iff]
      intro a ha
      have := hall a ha
      simp only [decide_eq_true_eq]
      omega

/-- Witness for C9 at concrete slice lists: a zero slice is dropped while a
positive one is kept, and an all-zero input renders the placeholder. -/
theorem chartData_spec_witness :
    ((⟨"Drafts", 0, "#f59e0b"⟩ : Slice) ∉
      chartData [⟨"Drafts", 0, "#f59e0b"⟩, ⟨"Published", 2, "#10b981"⟩]) ∧
    chartData [⟨"Drafts", 0, "#f59e0b"⟩, ⟨"Published", 2, "#10b981"⟩] =
      [⟨"Published", 2, "#10b981"⟩] ∧
    chartData [⟨"Drafts", 0, "#f59e0b"⟩] = [noDataSlice] := by
  refine ⟨?_, ?_, ?_⟩
  · exact (chartData_spec _).2.1 _ (by simp) (by decide)
  · have h := (chartData_spec
      [⟨"Drafts", 0, "#f59e0b"⟩, ⟨"Published", 2, "#10b981"⟩]).2.2.1
      ⟨⟨"Published", 2, "#10b981"⟩, by simp, by decide⟩
    rw [h]
    rfl
  · exact (chartData_spec [⟨"Drafts", 0, "#f59e0b"⟩]).2.2.2.1 (by decide)

/-- C10 (amended): full characterization of `apiFetch`: an ok response
returns the parsed body, an unparseable body reads as the empty object, and
for a non-ok response the thrown message is `detail` when it is a string;
the JSON serialization of `detail` when `detail` is present, not a string
and truthy; otherwise the (string-coerced) `message` field when present
and truthy; otherwise "Request failed". -/
theorem apiFetch_spec :
    (∀ body, apiFetch true body = Except.ok (body.getD (Json.obj []))) ∧
    apiFetch true none = Except.ok (Json.obj []) ∧
    (∀ body, apiFetch false body =
      Except.error (errorMessage (body.getD (Json.obj [])))) ∧
    (∀ data s, getField data "detail" = some (Json.str s) →
      errorMessage data = s) ∧
    (∀ data d, getField data "detail" = some d → (∀ s, d ≠ Json.str s) →
      truthy d = true → errorMessage data = stringify d) ∧
    (∀ data d, getField data "detail" = some d → (∀ s, d ≠ Json.str s) →
      truthy d = false → errorMessage data = fallbackMessage data) ∧
    (∀ data, getField data "detail" = none →
      errorMessage data = fallbackMessage data) ∧
    (∀ data m, getField data "message" = some m → truthy m = true →
      fallbackMessage data = jsToString m) ∧
    (∀ data m, getField data "message" = some m → truthy m = false →
      fallbackMessage data = "Request failed") ∧
    (∀ data, getField data "message" = none →
      fallbackMessage data = "Request failed") := by
  refine ⟨fun body => rfl, rfl, fun body => rfl, ?_, ?_, ?_, ?_, ?_, ?_, ?_⟩
  · intro data s h
    simp [errorMessage, h]
  · intro data d h hns htr
    cases d with
    | str s => exact absurd rfl (hns s)
    | null => simp [truthy] at htr
    | bool b =>
      have hb : b = true := by simpa [truthy] using htr
      subst hb
      simp [errorMessage, h, truthy]
    | num n =>
      have hn : ¬ n = 0 := by simpa [truthy] using htr
      simp [errorMessage, h, truthy, hn]
    | arr elems => simp [errorMessage, h, truthy]
    | obj fields => simp [errorMessage, h, truthy]
  · intro data d h hns htr
    cases d with
    | str s => exact absurd rfl (hns s)
    | null => simp [errorMessage, h, truthy]
    | bool b =>
      have hb : b = false := by simpa [truthy] using htr
      subst hb
      simp [errorMessage, h, truthy]
    | num n =>
      have hn : n = 0 := by simpa [truthy] using htr
      subst hn
      simp [errorMessage, h, truthy]
    | arr elems => simp [truthy] at htr
    | obj fields => simp [truthy] at htr
  · intro data h
    simp [errorMessage, h]
  · intro data m h htr
    simp [fallbackMessage, h, htr]
  · intro data m h htr
    simp [fallbackMessage, h, htr]
  · intro data h
    simp [fallbackMessage, h]

/-- Witness for C10's amended claim at concrete bodies: a string `detail`
is thrown verbatim; a truthy non-string `detail` is serialized; a falsy
`detail` falls back to a truthy `message`; a falsy `message` and an empty
body both yield "Request failed"; a missing body parses as the empty
object. -/
theorem apiFetch_spec_witness :
    errorMessage (Json.obj [("detail", Json.str "boom")]) = "boom" ∧
    errorMessage (Json.obj [("detail", Json.arr [])]) = "[]" ∧
    errorMessage
      (Json.obj [("detail", Json.num 0), ("message", Json.str "m")]) =
      "m" ∧
    errorMessage (Json.obj [("message", Json.str "")]) = "Request failed" ∧
    errorMessage (Json.obj []) = "Request failed" ∧
    apiFetch true none = Except.ok (Json.obj []) := by
  refine ⟨?_, ?_, ?_, ?_, ?_, apiFetch_spec.2.1⟩
  · exact apiFetch_spec.2.2.2.1 _ "boom" rfl
  · exact apiFetch_spec.2.2.2.2.1 _ (Json.arr []) rfl
      (fun s h => Json.noConfusion h) rfl
  · have h1 := apiFetch_spec.2.2.2.2.2.1
      (Json.obj [("detail", Json.num 0), ("message", Json.str "m")])
      (Json.num 0) rfl (fun s h => Json.noConfusion h) rfl
    have h2 := apiFetch_spec.2.2.2.2.2.2.2.1
      (Json.obj [("detail", Json.num 0), ("message", Json.str "m")])
      (Json.str "m") rfl rfl
    rw [h1, h2]
    rfl
  · have h1 := apiFetch_spec.2.2.2.2.2.2.1
      (Json.obj [("message", Json.str "")]) rfl
    have h2 := apiFetch_spec.2.2.2.2.2.2.2.2.1
      (Json.obj [("message", Json.str "")]) (Json.str "") rfl rfl
    rw [h1, h2]
  · have h1 := apiFetch_spec.2.2.2.2.2.2.1 (Json.obj []) rfl
    have h2 := apiFetch_spec.2.2.2.2.2.2.2.2.2 (Json.obj []) rfl
    rw [h1, h2]

/-- C10 counterexample: for the non-ok body where `detail` is the number 0
— present and not a string — the claim prescribes the message "0"
(`JSON.stringify(detail)`), but `apiFetch` throws "Request failed": the
code treats a falsy `detail` like an absent one. -/
theorem apiFetch_detail_falsy_counterexample :
    getField (Json.obj [("detail", Json.num 0)]) "detail" =
      some (Json.num 0) ∧
    stringify (Json.num 0) = "0" ∧
    apiFetch false (some (Json.obj [("detail", Json.num 0)])) =
      Except.error "Request failed" ∧
    ("Request failed" : String) ≠ "0" := by
  refine ⟨rfl, rfl, rfl, by decide⟩

/-- Witness for C7 at a concrete row. -/
theorem clerkUserRow_setting_witness :
    validClerkUserRow
      { occupation := some "engineer", automation_enabled := true,
        automation_frequency := "weekly", auto_publish := false,
        last_auto_run_at := some 100 } ∧
    ∃ s : AutomationSetting,
      toSetting
        { occupation := some "engineer", automation_enabled := true,
          automation_frequency := "weekly", auto_publish := false,
          last_auto_run_at := some 100 } = some s ∧
      s.frequency = .weekly := by
  have hv : validClerkUserRow
      { occupation := some "engineer", automation_enabled := true,
        automation_frequency := "weekly", auto_publish := false,
        last_auto_run_at := some 100 } := by
    unfold validClerkUserRow frequencyCheck
    decide
  obtain ⟨-, s, hs, _, _, _, _, hfr⟩ := clerkUserRow_setting _ hv
  refine ⟨hv, s, hs, ?_⟩
  rcases hfr with ⟨_, hbad⟩ | ⟨hgood, _⟩
  · exact absurd hbad (by decide)
  · exact hgood

end Synovora
